import Mathlib

/-!
Shallow embedding of the aicommits core (configuration store and completion
client) from src/utils/config.ts and the completion pipeline, with theorems
settling the stated claims about it.

Conventions of the embedding:
  * A JavaScript value that may be `undefined` is an `Option`.
  * A thrown `KnownError` is `Except.error msg`; normal return is `Except.ok`.
  * `RawConfig` (the persisted INI file contents and the CLI override map) is
    an association list from string keys to string values; lookup returns the
    first binding.
  * The heterogeneous parsed values (strings, numbers, booleans, `undefined`)
    are the inductive `ConfigValue`.
-/

namespace Aicommits

/-- The heterogeneous values produced by the per-key config parsers. -/
inductive ConfigValue
  | str (s : String)
  | num (n : Nat)
  | bool (b : Bool)
  | undef
deriving DecidableEq, Repr

/-- The recognized config keys, in the iteration order of `combinedParsers`
(the spread puts the azure keys first, then the plain config keys). -/
inductive ConfigKey
  | USE_AZURE
  | AZURE_OPENAI_KEY
  | AZURE_OPENAI_ENDPOINT
  | OPENAI_KEY
  | locale
  | generate
  | type
  | proxy
  | model
  | timeout
  | maxLength
deriving DecidableEq, Repr

/-- Iteration order of `Object.keys(combinedParsers)`. -/
def ConfigKey.all : List ConfigKey :=
  [.USE_AZURE, .AZURE_OPENAI_KEY, .AZURE_OPENAI_ENDPOINT, .OPENAI_KEY,
   .locale, .generate, .type, .proxy, .model, .timeout, .maxLength]

/-- The string name of each key (the property name in `combinedParsers`). -/
def ConfigKey.name : ConfigKey → String
  | .USE_AZURE => "USE_AZURE"
  | .AZURE_OPENAI_KEY => "AZURE_OPENAI_KEY"
  | .AZURE_OPENAI_ENDPOINT => "AZURE_OPENAI_ENDPOINT"
  | .OPENAI_KEY => "OPENAI_KEY"
  | .locale => "locale"
  | .generate => "generate"
  | .type => "type"
  | .proxy => "proxy"
  | .model => "model"
  | .timeout => "timeout"
  | .maxLength => "max-length"

/-- `hasOwn(combinedParsers, key)` together with the key it names. -/
def keyOfString (s : String) : Option ConfigKey :=
  if s = "USE_AZURE" then some .USE_AZURE
  else if s = "AZURE_OPENAI_KEY" then some .AZURE_OPENAI_KEY
  else if s = "AZURE_OPENAI_ENDPOINT" then some .AZURE_OPENAI_ENDPOINT
  else if s = "OPENAI_KEY" then some .OPENAI_KEY
  else if s = "locale" then some .locale
  else if s = "generate" then some .generate
  else if s = "type" then some .type
  else if s = "proxy" then some .proxy
  else if s = "model" then some .model
  else if s = "timeout" then some .timeout
  else if s = "max-length" then some .maxLength
  else none

/-- Raw (unparsed) key-value mapping: the INI file contents or CLI overrides. -/
abbrev RawConfig := List (String × String)

/-- First-binding association lookup, the JS property access on the raw map. -/
def rawLookup : RawConfig → String → Option String
  | [], _ => none
  | (k, v) :: rest, key => if k = key then some v else rawLookup rest key

/-- JS falsiness of an optional string: `!x` is true for `undefined` and `""`. -/
def jsFalsy (v : Option String) : Bool :=
  match v with
  | none => true
  | some s => s = ""

/-- The `parseAssert` helper: throws `KnownError` when the condition fails. -/
def parseAssert (name : String) (condition : Bool) (message : String) :
    Except String Unit :=
  if condition then .ok ()
  else .error ("Invalid config property " ++ name ++ ": " ++ message)

/-- `String.prototype.startsWith` on the character lists. -/
def strStartsWith (s p : String) : Bool :=
  p.data.isPrefixOf s.data

/-- JS `/^\d+$/.test s`. -/
def isDigitString (s : String) : Bool :=
  s.data ≠ [] && s.data.all Char.isDigit

/-- JS `Number` on a digit-only string. -/
def digitsToNat (s : String) : Nat :=
  s.data.foldl (fun n c => n * 10 + (c.toNat - 48)) 0

/-- JS `/^[a-z-]+$/i.test s`. -/
def isLocaleString (s : String) : Bool :=
  s.data ≠ [] && s.data.all (fun c => c.isAlpha || c = '-')

/-- JS `/^https?:\/\//.test s`. -/
def isHttpUrl (s : String) : Bool :=
  strStartsWith s "http://" || strStartsWith s "https://"

/-- `String.prototype.toLowerCase` (ASCII range, which the flag values use). -/
def jsToLower (s : String) : String :=
  String.mk (s.data.map Char.toLower)

/-- `configParsers.OPENAI_KEY`. -/
def parse_OPENAI_KEY (key : Option String) : Except String ConfigValue :=
  if jsFalsy key then .ok (.str "")
  else
    let k := key.getD ""
    do
      parseAssert "OPENAI_KEY" (strStartsWith k "sk-") "Must start with \"sk-\""
      .ok (.str k)

/-- `configParsers.locale`. -/
def parse_locale (locale : Option String) : Except String ConfigValue :=
  if jsFalsy locale then .ok (.str "en")
  else
    let l := locale.getD ""
    do
      parseAssert "locale" (l ≠ "") "Cannot be empty"
      parseAssert "locale" (isLocaleString l)
        "Must be a valid locale (letters and dashes/underscores). You can consult the list of codes in: https://wikipedia.org/wiki/List_of_ISO_639-1_codes"
      .ok (.str l)

/-- `configParsers.generate`. -/
def parse_generate (count : Option String) : Except String ConfigValue :=
  if jsFalsy count then .ok (.num 1)
  else
    let c := count.getD ""
    do
      parseAssert "generate" (isDigitString c) "Must be an integer"
      let parsed := digitsToNat c
      parseAssert "generate" (parsed > 0) "Must be greater than 0"
      parseAssert "generate" (parsed ≤ 5) "Must be less or equal to 5"
      .ok (.num parsed)

/-- `configParsers.type`. -/
def parse_type (t : Option String) : Except String ConfigValue :=
  if jsFalsy t then .ok (.str "")
  else
    let ty := t.getD ""
    do
      parseAssert "type" (ty = "" || ty = "conventional") "Invalid commit type"
      .ok (.str ty)

/-- `configParsers.proxy`. -/
def parse_proxy (url : Option String) : Except String ConfigValue :=
  if jsFalsy url then .ok .undef
  else
    let u := url.getD ""
    do
      parseAssert "proxy" (isHttpUrl u) "Must be a valid URL"
      .ok (.str u)

/-- `configParsers.model`. -/
def parse_model (model : Option String) : Except String ConfigValue :=
  if jsFalsy model then .ok (.str "gpt-3.5-turbo")
  else .ok (.str (model.getD ""))

/-- `configParsers.timeout`. -/
def parse_timeout (timeout : Option String) : Except String ConfigValue :=
  if jsFalsy timeout then .ok (.num 10000)
  else
    let t := timeout.getD ""
    do
      parseAssert "timeout" (isDigitString t) "Must be an integer"
      let parsed := digitsToNat t
      parseAssert "timeout" (parsed ≥ 500) "Must be greater than 500ms"
      .ok (.num parsed)

/-- `configParsers.max-length`. -/
def parse_maxLength (maxLength : Option String) : Except String ConfigValue :=
  if jsFalsy maxLength then .ok (.num 50)
  else
    let m := maxLength.getD ""
    do
      parseAssert "max-length" (isDigitString m) "Must be an integer"
      let parsed := digitsToNat m
      parseAssert "max-length" (parsed ≥ 20) "Must be greater than 20 characters"
      .ok (.num parsed)

/-- `azureConfigParsers.USE_AZURE`: defaults only on `undefined`, not on `""`. -/
def parse_USE_AZURE (useAzure : Option String) : Except String ConfigValue :=
  match useAzure with
  | none => .ok (.bool false)
  | some v =>
    let normalizedValue := jsToLower v
    do
      parseAssert "USE_AZURE"
        (normalizedValue = "true" || normalizedValue = "false")
        "Must be true or false"
      .ok (.bool (normalizedValue = "true"))

/-- `azureConfigParsers.AZURE_OPENAI_KEY`. -/
def parse_AZURE_OPENAI_KEY (key : Option String) : Except String ConfigValue :=
  if jsFalsy key then .ok (.str "")
  else
    let k := key.getD ""
    do
      parseAssert "AZURE_OPENAI_KEY" (k.data.length > 0) "Cannot be empty"
      .ok (.str k)

/-- `azureConfigParsers.AZURE_OPENAI_ENDPOINT`. -/
def parse_AZURE_OPENAI_ENDPOINT (endpoint : Option String) :
    Except String ConfigValue :=
  if jsFalsy endpoint then .ok (.str "")
  else
    let e := endpoint.getD ""
    do
      parseAssert "AZURE_OPENAI_ENDPOINT" (isHttpUrl e) "Must be a valid URL"
      .ok (.str e)

/-- `combinedParsers[key]`. -/
def parserFor : ConfigKey → Option String → Except String ConfigValue
  | .USE_AZURE => parse_USE_AZURE
  | .AZURE_OPENAI_KEY => parse_AZURE_OPENAI_KEY
  | .AZURE_OPENAI_ENDPOINT => parse_AZURE_OPENAI_ENDPOINT
  | .OPENAI_KEY => parse_OPENAI_KEY
  | .locale => parse_locale
  | .generate => parse_generate
  | .type => parse_type
  | .proxy => parse_proxy
  | .model => parse_model
  | .timeout => parse_timeout
  | .maxLength => parse_maxLength

/-- A parsed-config mapping, built up one key at a time (the JS
`parsedConfig: Record<string, unknown>`). -/
abbrev ParsedConfig := List (ConfigKey × ConfigValue)

/-- First-binding lookup in the parsed config. -/
def plookup : ParsedConfig → ConfigKey → Option ConfigValue
  | [], _ => none
  | (k, v) :: rest, key => if k = key then some v else plookup rest key

/-- Value precedence inside `getConfig`: `cliConfig?.[key] ?? config[key]`.
The nullish coalescing falls through only when the CLI entry is absent; a
present empty string wins. -/
def resolveRaw (cli file : RawConfig) (k : ConfigKey) : Option String :=
  match rawLookup cli k.name with
  | some v => some v
  | none => rawLookup file k.name

/-- The per-key loop of `getConfig`: apply each parser to the resolved value;
with `suppress` a failure drops the key, without it the first failure aborts. -/
def parseKeysGo (cli file : RawConfig) (suppress : Bool) :
    List ConfigKey → ParsedConfig → Except String ParsedConfig
  | [], acc => .ok acc
  | k :: ks, acc =>
    match parserFor k (resolveRaw cli file k), suppress with
    | .ok v, _ => parseKeysGo cli file suppress ks (acc ++ [(k, v)])
    | .error _, true => parseKeysGo cli file suppress ks acc
    | .error e, false => .error e

/-- Missing-OpenAI-key instructional error text. -/
def msgMissingOpenAIKey : String :=
  "Please set your OpenAI API key via \x60aicommits config set OPENAI_KEY=<your token>\x60 or set your Azure OpenAI configurations."

/-- Missing-Azure-key instructional error text. -/
def msgMissingAzureKey : String :=
  "Please set your Azure OpenAI configurations via aicommits config set AZURE_OPENAI_KEY=<your token>"

/-- Missing-Azure-endpoint instructional error text. -/
def msgMissingAzureEndpoint : String :=
  "Please set your Azure OpenAI configurations via aicommits config set AZURE_OPENAI_ENDPOINT=\x27<your-deployment-full-url>\x27"

/-- The cross-field credential checks after the per-key loop, mirroring the
source: `openaiKey === ''` and the truthiness of the parsed `USE_AZURE` are
tested on the (possibly partial) parsed record, and each throw site is
guarded by `!suppressErrors`. -/
def crossFieldCheck (suppress : Bool) (pc : ParsedConfig) :
    Except String ParsedConfig :=
  let openaiEmpty := plookup pc .OPENAI_KEY = some (.str "")
  let useAzure := plookup pc .USE_AZURE = some (.bool true)
  if openaiEmpty ∧ ¬useAzure ∧ suppress = false then
    .error msgMissingOpenAIKey
  else if useAzure ∧ suppress = false ∧
      plookup pc .AZURE_OPENAI_KEY = some (.str "") then
    .error msgMissingAzureKey
  else if useAzure ∧ suppress = false ∧
      plookup pc .AZURE_OPENAI_ENDPOINT = some (.str "") then
    .error msgMissingAzureEndpoint
  else
    .ok pc

/-- `getConfig(cliConfig, suppressErrors)`: `file` is the raw mapping read
from the persisted file (`[]` when the file is absent) and `cli` the override
map (`[]` when none was passed): the per-key loop followed by the cross-field
credential checks, a thrown error propagating unchanged. -/
def getConfig (file cli : RawConfig) (suppress : Bool) :
    Except String ParsedConfig :=
  (parseKeysGo cli file suppress ConfigKey.all []).bind (crossFieldCheck suppress)

/-- Serialization of a parsed value back into the raw INI mapping, as
`config[key] = parsed` followed by `ini.stringify` renders it. -/
def valueToString : ConfigValue → String
  | .str s => s
  | .num n => toString n
  | .bool b => if b then "true" else "false"
  | .undef => "undefined"

/-- In-memory update of the raw mapping: replace the first binding of the key
or append a new one (JS property assignment preserving insertion order). -/
def rawSet : RawConfig → String → String → RawConfig
  | [], key, v => [(key, v)]
  | (k, w) :: rest, key, v =>
    if k = key then (k, v) :: rest else (k, w) :: rawSet rest key v

/-- `setConfigs(keyValues)`: `file` is the raw mapping read from the persisted
file. An unknown key or a parser failure aborts with `Except.error` before
anything is written; `Except.ok` carries the full new file contents that the
single final `fs.writeFile` persists. -/
def setConfigs (file : RawConfig) (keyValues : List (String × String)) :
    Except String RawConfig :=
  match keyValues with
  | [] => .ok file
  | (key, value) :: rest =>
    match keyOfString key with
    | none => .error ("Invalid config property: " ++ key)
    | some k =>
      match parserFor k (some value) with
      | .error e => .error e
      | .ok parsed => setConfigs (rawSet file key (valueToString parsed)) rest

/-- JS `String.prototype.trim` whitespace (the characters relevant here). -/
def isJsWhitespace (c : Char) : Bool :=
  c = ' ' || c = '\t' || c = '\n' || c = '\r' ||
  c = '\x0b' || c = '\x0c' || c = '\u00A0' || c = '\uFEFF'

/-- `message.trim()` on the character list. -/
def jsTrimList (l : List Char) : List Char :=
  ((l.dropWhile isJsWhitespace).reverse.dropWhile isJsWhitespace).reverse

/-- `.replace(/[\n\r]/g, '')`. -/
def removeLineBreaks (l : List Char) : List Char :=
  l.filter (fun c => !(c = '\n' || c = '\r'))

/-- JS `\w`: letters, digits, underscore. -/
def isWordChar (c : Char) : Bool :=
  c.isAlphanum || c = '_'

/-- `.replace(/(\w)\.$/, '$1')`: drop a final period only when it is
immediately preceded by a word character. -/
def stripTrailingPeriod (l : List Char) : List Char :=
  match l.reverse with
  | '.' :: c :: rest => if isWordChar c then (c :: rest).reverse else l
  | _ => l

/-- The trimmed, line-break-free character list of a candidate, before the
trailing-period step. -/
def cleanedList (message : String) : List Char :=
  removeLineBreaks (jsTrimList message.data)

/-- `sanitizeMessage`. -/
def sanitizeMessage (message : String) : String :=
  String.mk (stripTrailingPeriod (cleanedList message))

/-- `Array.from(new Set(array))`: keep each element at its first occurrence.
The `seen` argument is the set contents so far. -/
def dedupGo : List String → List String → List String
  | _, [] => []
  | seen, x :: xs =>
    if seen.contains x then dedupGo seen xs
    else x :: dedupGo (x :: seen) xs

/-- `deduplicateMessages`. -/
def deduplicateMessages (array : List String) : List String :=
  dedupGo [] array

/-- One element of `completion.choices`: the message and its content may each
be absent. -/
structure ChatMessage where
  content : Option String
deriving Repr

/-- An API choice. -/
structure Choice where
  message : Option ChatMessage
deriving Repr

/-- Truthiness of `choice.message?.content`. -/
def choiceContentTruthy (c : Choice) : Bool :=
  match c.message with
  | some m => !(jsFalsy m.content)
  | none => false

/-- `choice.message!.content` after the truthiness filter. -/
def choiceText (c : Choice) : String :=
  ((c.message.bind ChatMessage.content).getD "")

/-- The pure tail of `generateCommitMessage`: filter the choices with truthy
content, sanitize each, deduplicate. -/
def generateCommitMessages (choices : List Choice) : List String :=
  deduplicateMessages
    ((choices.filter choiceContentTruthy).map (fun c => sanitizeMessage (choiceText c)))

/-- The advisory appended to 500 responses. -/
def apiStatusAdvisory : String :=
  "\n\nCheck the API status: https://status.openai.com"

/-- The HTTP-status classification of `createChatCompletion`; `data` is the
buffered response body. A status outside 2xx throws the assembled
`KnownError`; otherwise the raw body is handed to the JSON layer (modelled as
returning it). The source also treats an absent status code as a failure;
an actually received status is a number, so the embedding takes a `Nat`. -/
def createChatCompletionResult (statusCode : Nat) (statusMessage : String)
    (data : String) : Except String String :=
  if statusCode < 200 || statusCode > 299 then
    let base := "API Error: " ++ toString statusCode ++ " - " ++ statusMessage
    let withBody := if data ≠ "" then base ++ "\n\n" ++ data else base
    let msg := if statusCode = 500 then withBody ++ apiStatusAdvisory
               else withBody
    .error msg
  else .ok data

/-- The validated config fields that `generateCommitMessage` destructures. -/
structure ValidConfig where
  OPENAI_KEY : String
  USE_AZURE : Bool
  AZURE_OPENAI_KEY : String
  AZURE_OPENAI_ENDPOINT : String
  proxy : Option String
  generate : Nat
  timeout : Nat
  locale : String
  maxLength : Nat
  model : String
  type : String

/-- The fixed default chat-completion endpoint. -/
def defaultCompletionUrl : String :=
  "https://api.openai.com/v1/chat/completions"

/-- Where the request goes and which credential header it carries. -/
structure RequestInfo where
  url : String
  headers : List (String × String)

/-- Header selection in `createChatCompletion`. -/
def credentialHeaders (useAzure : Bool) (apiKey : String) :
    List (String × String) :=
  if useAzure then [("api-key", apiKey)]
  else [("Authorization", "Bearer " ++ apiKey)]

/-- Endpoint and credential selection in `generateCommitMessage`: the URL by
the gateway flag, and the key passed to `createChatCompletion` is the azure
key in gateway mode and the direct key otherwise. -/
def buildRequest (config : ValidConfig) : RequestInfo :=
  { url := if config.USE_AZURE then config.AZURE_OPENAI_ENDPOINT
           else defaultCompletionUrl
    headers := credentialHeaders config.USE_AZURE
      (if config.USE_AZURE then config.AZURE_OPENAI_KEY else config.OPENAI_KEY) }

/-- A key=value pair that `setConfigs` rejects: an unrecognized key, or a
value its parser refuses. -/
def pairRejected (p : String × String) : Bool :=
  match keyOfString p.1 with
  | none => true
  | some k =>
    match parserFor k (some p.2) with
    | .error _ => true
    | .ok _ => false

/-- The cross-field credential invariant as the spec words it: gateway mode
disabled needs a non-empty direct key; gateway mode enabled needs a non-empty
gateway key and endpoint. -/
def credentialsOk (useAzure : Bool) (openaiKey azureKey azureEndpoint : String) :
    Prop :=
  (useAzure = false → openaiKey ≠ "") ∧
  (useAzure = true → azureKey ≠ "" ∧ azureEndpoint ≠ "")

/-- Deduplication as the spec words it: fold left, appending each text the
first time it is seen and dropping later occurrences. -/
def dedupFirstSeen (l : List String) : List String :=
  l.foldl (fun acc x => if x ∈ acc then acc else acc ++ [x]) []

/-- The sanitized texts of the choices with truthy content, before
deduplication. -/
def eligibleTexts (choices : List Choice) : List String :=
  (choices.filter choiceContentTruthy).map (fun c => sanitizeMessage (choiceText c))

/-- C2 (counterexample): with no persisted file and no overrides,
`getConfig` without suppression does not return the defaults; the direct API
key defaults to the empty string with gateway mode disabled, so the call
fails the cross-field credential check with the instructional error. -/
theorem getConfig_no_file_no_overrides_fails :
    getConfig [] [] false = Except.error msgMissingOpenAIKey := rfl

/-- C2 (amended): with no persisted file and no overrides, `getConfig` called
with suppression returns successfully and maps every recognized key to its
documented default (direct API key "", locale "en", generate count 1, commit
type "", proxy undefined, model "gpt-3.5-turbo", timeout 10000, max message
length 50, gateway flag false, gateway key "", gateway endpoint ""); without
suppression the same resolution trips the credential invariant instead. -/
theorem getConfig_no_file_no_overrides_suppressed_defaults :
    getConfig [] [] true = Except.ok
      [(.USE_AZURE, .bool false), (.AZURE_OPENAI_KEY, .str ""),
       (.AZURE_OPENAI_ENDPOINT, .str ""), (.OPENAI_KEY, .str ""),
       (.locale, .str "en"), (.generate, .num 1), (.type, .str ""),
       (.proxy, .undef), (.model, .str "gpt-3.5-turbo"),
       (.timeout, .num 10000), (.maxLength, .num 50)] := rfl

/-- C8: the generate-count parser returns 1 when the raw value is absent or
empty, returns the parsed integer for every digit string whose value lies in
[1,5], and fails with a validation error naming the key for every other
input. -/
theorem parse_generate_spec :
    parse_generate none = .ok (.num 1) ∧
    parse_generate (some "") = .ok (.num 1) ∧
    (∀ s : String, isDigitString s = true → 1 ≤ digitsToNat s →
      digitsToNat s ≤ 5 →
      parse_generate (some s) = .ok (.num (digitsToNat s))) ∧
    (∀ s : String, s ≠ "" →
      (isDigitString s = false ∨ digitsToNat s = 0 ∨ 5 < digitsToNat s) →
      ∃ m, parse_generate (some s) = .error m ∧
        ∃ a b, m = a ++ "generate" ++ b) := by
  refine ⟨rfl, rfl, ?_, ?_⟩
  · intro s hd h1 h5
    have hne : ¬ s = "" := by
      intro h
      subst h
      simp [isDigitString] at hd
    have hpos : 0 < digitsToNat s := h1
    simp [parse_generate, jsFalsy, hne, parseAssert, hd, hpos, h5]
    all_goals rfl
  · intro s hne hbad
    by_cases hd : isDigitString s = true
    · have hz : digitsToNat s = 0 ∨ 5 < digitsToNat s := by
        rcases hbad with h | h | h
        · rw [hd] at h
          cases h
        · exact Or.inl h
        · exact Or.inr h
      rcases hz with h0 | h5
      · refine ⟨"Invalid config property generate: Must be greater than 0", ?_,
          "Invalid config property ", ": Must be greater than 0", rfl⟩
        simp [parse_generate, jsFalsy, hne, parseAssert, hd, h0]
        all_goals rfl
      · have hp : 0 < digitsToNat s := by omega
        have hle : ¬ digitsToNat s ≤ 5 := by omega
        refine ⟨"Invalid config property generate: Must be less or equal to 5", ?_,
          "Invalid config property ", ": Must be less or equal to 5", rfl⟩
        simp [parse_generate, jsFalsy, hne, parseAssert, hd, hp, hle]
        all_goals rfl
    · have hd' : isDigitString s = false := by simpa using hd
      refine ⟨"Invalid config property generate: Must be an integer", ?_,
        "Invalid config property ", ": Must be an integer", rfl⟩
      simp [parse_generate, jsFalsy, hne, parseAssert, hd']
      all_goals rfl

/-- C8 witness: the parser at the concrete inputs "3" (accepted) and "7"
(rejected with a message naming the key). -/
theorem parse_generate_spec_witness :
    parse_generate (some "3") = .ok (.num (digitsToNat "3")) ∧
    ∃ m, parse_generate (some "7") = .error m ∧
      ∃ a b, m = a ++ "generate" ++ b :=
  ⟨parse_generate_spec.2.2.1 "3" (by decide) (by decide) (by decide),
   parse_generate_spec.2.2.2 "7" (by decide) (Or.inr (Or.inr (by decide)))⟩

/-- C10 (counterexample): an empty-string CLI override of USE_AZURE takes
precedence over the persisted "true", but its parser rejects the empty
string instead of yielding the default, so the read fails where the claim
predicts a successful defaulted read. -/
theorem empty_override_USE_AZURE_errors :
    getConfig
      [("USE_AZURE", "true"), ("OPENAI_KEY", "sk-x"), ("AZURE_OPENAI_KEY", "k"),
       ("AZURE_OPENAI_ENDPOINT", "https://e")]
      [("USE_AZURE", "")] false =
    Except.error "Invalid config property USE_AZURE: Must be true or false" := rfl

/-- C10 (amended): a present empty-string CLI override still takes precedence
over the persisted value (the fallthrough happens only when the override is
absent), and the parser then sees the empty input; for every key except
USE_AZURE this yields the same result as an absent value (the default), while
the USE_AZURE parser rejects the empty string because it defaults only on an
absent value. -/
theorem empty_override_precedence_spec :
    (∀ (cli file : RawConfig) (k : ConfigKey),
      rawLookup cli k.name = some "" → resolveRaw cli file k = some "") ∧
    (∀ k : ConfigKey, k ≠ .USE_AZURE →
      parserFor k (some "") = parserFor k none) ∧
    parserFor .USE_AZURE (some "") =
      .error "Invalid config property USE_AZURE: Must be true or false" := by
  refine ⟨?_, ?_, rfl⟩
  · intro cli file k h
    simp [resolveRaw, h]
  · intro k hk
    cases k <;> first | rfl | exact absurd rfl hk

/-- C10 witness: a concrete empty override shadowing a persisted key, and a
key other than USE_AZURE parsing the empty input like an absent one. -/
theorem empty_override_precedence_spec_witness :
    resolveRaw [("OPENAI_KEY", "")] [("OPENAI_KEY", "sk-x")] .OPENAI_KEY =
      some "" ∧
    parserFor .locale (some "") = parserFor .locale none :=
  ⟨empty_override_precedence_spec.1 _ _ _ rfl,
   empty_override_precedence_spec.2.1 .locale (by decide)⟩

/-- C7: the request targets the configured gateway endpoint with an api-key
header carrying the gateway key when the gateway flag is set, and the fixed
default completion endpoint with a bearer Authorization header carrying the
direct key when it is not. -/
theorem buildRequest_mode_selection :
    ∀ config : ValidConfig,
      (config.USE_AZURE = true →
        (buildRequest config).url = config.AZURE_OPENAI_ENDPOINT ∧
        rawLookup (buildRequest config).headers "api-key" =
          some config.AZURE_OPENAI_KEY ∧
        rawLookup (buildRequest config).headers "Authorization" = none) ∧
      (config.USE_AZURE = false →
        (buildRequest config).url = defaultCompletionUrl ∧
        rawLookup (buildRequest config).headers "Authorization" =
          some ("Bearer " ++ config.OPENAI_KEY) ∧
        rawLookup (buildRequest config).headers "api-key" = none) := by
  intro config
  constructor <;> intro h <;>
    simp [buildRequest, credentialHeaders, h, rawLookup]

/-- C7 witness: the selection at one gateway-mode config and one direct-mode
config. -/
theorem buildRequest_mode_selection_witness :
    (buildRequest
      ⟨"sk-a", true, "azkey", "https://gw", none, 1, 10000, "en", 50, "m", ""⟩).url =
      "https://gw" ∧
    (buildRequest
      ⟨"sk-a", false, "azkey", "https://gw", none, 1, 10000, "en", 50, "m", ""⟩).url =
      defaultCompletionUrl :=
  ⟨((buildRequest_mode_selection _).1 rfl).1,
   ((buildRequest_mode_selection _).2 rfl).1⟩

/-- C6: a status outside [200,299] fails with an API error carrying the
status code, the status text and the raw body, with the upstream-status
advisory appended exactly when the status is 500; a status inside [200,299]
raises no such error. -/
theorem createChatCompletion_status_spec :
    ∀ (code : Nat) (statusText body : String),
      ((code < 200 ∨ 299 < code) →
        ∃ core,
          createChatCompletionResult code statusText body =
            .error (if code = 500 then core ++ apiStatusAdvisory else core) ∧
          (∃ a b, core = a ++ toString code ++ b) ∧
          (∃ a b, core = a ++ statusText ++ b) ∧
          (∃ a b, core = a ++ body ++ b)) ∧
      (200 ≤ code → code ≤ 299 →
        createChatCompletionResult code statusText body = .ok body) := by
  intro code statusText body
  constructor
  · intro h
    have hcond : (code < 200 || code > 299) = true := by
      rcases h with h | h <;> simp [h]
    by_cases hb : body = ""
    · subst hb
      refine ⟨"API Error: " ++ toString code ++ " - " ++ statusText,
        by simp [createChatCompletionResult, hcond], ?_, ?_, ?_⟩
      · exact ⟨"API Error: ", " - " ++ statusText, by simp [String.append_assoc]⟩
      · exact ⟨"API Error: " ++ toString code ++ " - ", "",
          by simp [String.append_empty]⟩
      · exact ⟨"API Error: " ++ toString code ++ " - " ++ statusText, "",
          by simp [String.append_empty]⟩
    · refine ⟨"API Error: " ++ toString code ++ " - " ++ statusText ++
        "\n\n" ++ body,
        by simp [createChatCompletionResult, hcond, hb], ?_, ?_, ?_⟩
      · exact ⟨"API Error: ",
          " - " ++ statusText ++ "\n\n" ++ body, by simp [String.append_assoc]⟩
      · exact ⟨"API Error: " ++ toString code ++ " - ",
          "\n\n" ++ body, by simp [String.append_assoc]⟩
      · exact ⟨"API Error: " ++ toString code ++ " - " ++ statusText ++ "\n\n",
          "", by simp [String.append_empty]⟩
  · intro h1 h2
    have hcond : (code < 200 || code > 299) = false := by
      simp only [Bool.or_eq_false_iff, decide_eq_false_iff_not]
      omega
    simp [createChatCompletionResult, hcond]

/-- C6 witness: the classification at a concrete 500 response (advisory
present) and a concrete 204 response (no error). -/
theorem createChatCompletion_status_spec_witness :
    (∃ core,
      createChatCompletionResult 500 "Internal Server Error" "oops" =
        .error (if 500 = 500 then core ++ apiStatusAdvisory else core) ∧
      (∃ a b, core = a ++ toString 500 ++ b) ∧
      (∃ a b, core = a ++ "Internal Server Error" ++ b) ∧
      (∃ a b, core = a ++ "oops" ++ b)) ∧
    createChatCompletionResult 204 "No Content" "body" = .ok "body" :=
  ⟨(createChatCompletion_status_spec 500 "Internal Server Error" "oops").1
      (Or.inr (by omega)),
   (createChatCompletion_status_spec 204 "No Content" "body").2
      (by omega) (by omega)⟩

/-- C4 (counterexample): the trailing period of "hi!." is kept because the
regex `(\w)\.$` requires a word character before the period, while the claim
as stated would remove it. -/
theorem sanitizeMessage_keeps_period_after_nonword :
    sanitizeMessage "hi!." = "hi!." ∧ sanitizeMessage "hi!." ≠ "hi!" :=
  ⟨rfl, by decide⟩

/-- C4 (amended): the sanitized result is the input trimmed and stripped of
newlines/carriage returns, with a single trailing period removed exactly when
it is immediately preceded by a word character (letter, digit or underscore). -/
theorem sanitizeMessage_trailing_period_spec :
    ∀ s : String,
      (∀ p c, isWordChar c = true → cleanedList s = p ++ [c, '.'] →
        sanitizeMessage s = String.mk (p ++ [c])) ∧
      ((¬ ∃ p c, isWordChar c = true ∧ cleanedList s = p ++ [c, '.']) →
        sanitizeMessage s = String.mk (cleanedList s)) := by
  intro s
  constructor
  · intro p c hw h
    show String.mk (stripTrailingPeriod (cleanedList s)) = _
    rw [h]
    simp [stripTrailingPeriod, hw]
  · intro hn
    show String.mk (stripTrailingPeriod (cleanedList s)) = _
    unfold stripTrailingPeriod
    split
    · rename_i c rest heq
      by_cases hw : isWordChar c = true
      · have hdec : cleanedList s = rest.reverse ++ [c, '.'] := by
          rw [← List.reverse_reverse (cleanedList s), heq]
          simp
        exact absurd ⟨rest.reverse, c, hw, hdec⟩ hn
      · simp [hw]
    · rfl

/-- C4 witness: the concrete input "ok." whose cleaned form ends in a word
character followed by a period, which the sanitizer strips. -/
theorem sanitizeMessage_trailing_period_spec_witness :
    sanitizeMessage "ok." = String.mk (['o'] ++ ['k']) :=
  (sanitizeMessage_trailing_period_spec "ok.").1 ['o'] 'k' (by decide) (by decide)

theorem dedupGo_sublist : ∀ (l seen : List String), (dedupGo seen l).Sublist l := by
  intro l
  induction l with
  | nil => intro seen; simp [dedupGo]
  | cons y ys ih =>
    intro seen
    by_cases hc : seen.contains y = true
    · simp only [dedupGo, if_pos hc]
      exact (ih seen).trans (List.sublist_cons_self y ys)
    · simp only [dedupGo, if_neg hc]
      exact (ih (y :: seen)).cons₂ y

theorem dedupGo_mem : ∀ (l seen : List String) (x : String),
    x ∈ dedupGo seen l ↔ (x ∈ l ∧ x ∉ seen) := by
  intro l
  induction l with
  | nil => intro seen x; simp [dedupGo]
  | cons y ys ih =>
    intro seen x
    by_cases hc : seen.contains y = true
    · have hy : y ∈ seen := List.elem_iff.mp hc
      simp only [dedupGo, hc, if_true]
      rw [ih]
      constructor
      · rintro ⟨h1, h2⟩
        exact ⟨List.mem_cons_of_mem y h1, h2⟩
      · rintro ⟨h1, h2⟩
        rcases List.mem_cons.mp h1 with h | h
        · exact absurd (h ▸ hy) h2
        · exact ⟨h, h2⟩
    · simp only [dedupGo, hc, if_false, Bool.false_eq_true, List.mem_cons]
      constructor
      · rintro (h | h)
        · refine ⟨Or.inl h, ?_⟩
          intro hs
          exact hc (List.elem_iff.mpr (h ▸ hs))
        · rcases (ih (y :: seen) x).mp h with ⟨h1, h2⟩
          exact ⟨Or.inr h1, fun hs => h2 (List.mem_cons_of_mem y hs)⟩
      · rintro ⟨h1, h2⟩
        by_cases hxy : x = y
        · exact Or.inl hxy
        · rcases h1 with h | h
          · exact absurd h hxy
          · exact Or.inr ((ih (y :: seen) x).mpr
              ⟨h, fun hs => (List.mem_cons.mp hs).elim hxy h2⟩)

theorem dedupGo_nodup : ∀ (l seen : List String), (dedupGo seen l).Nodup := by
  intro l
  induction l with
  | nil => intro seen; simp [dedupGo]
  | cons y ys ih =>
    intro seen
    by_cases hc : seen.contains y = true
    · simp only [dedupGo, if_pos hc]
      exact ih seen
    · simp only [dedupGo, if_neg hc]
      refine List.nodup_cons.mpr ⟨?_, ih (y :: seen)⟩
      intro hmem
      exact ((dedupGo_mem ys (y :: seen) y).mp hmem).2 (List.mem_cons_self y seen)

theorem dedupGo_eq_foldl : ∀ (l acc seen : List String),
    (∀ x, x ∈ seen ↔ x ∈ acc) →
    l.foldl (fun acc x => if x ∈ acc then acc else acc ++ [x]) acc =
      acc ++ dedupGo seen l := by
  intro l
  induction l with
  | nil => intro acc seen _; simp [dedupGo]
  | cons y ys ih =>
    intro acc seen h
    by_cases hc : y ∈ acc
    · have hys : y ∈ seen := (h y).mpr hc
      have hcs : seen.contains y = true := List.elem_iff.mpr hys
      simp only [List.foldl_cons, if_pos hc, dedupGo, hcs, if_true]
      exact ih acc seen h
    · have hys : ¬ y ∈ seen := fun hm => hc ((h y).mp hm)
      have hcs : ¬ seen.contains y = true := fun hb => hys (List.elem_iff.mp hb)
      simp only [List.foldl_cons, if_neg hc, dedupGo, hcs, if_false,
        Bool.false_eq_true]
      rw [ih (acc ++ [y]) (y :: seen)
        (by intro x; simp [h x, or_comm, List.mem_append])]
      simp [List.append_assoc]

/-- C5: the generated message list is the deduplication of the sanitized
texts of the choices with truthy content: a subsequence of those texts,
without duplicates, containing exactly those texts, and equal to the
first-seen-order fold the spec describes; in particular two choices with
identical sanitized text yield a single entry. -/
theorem generateCommitMessages_dedup_spec :
    ∀ choices : List Choice,
      generateCommitMessages choices = dedupFirstSeen (eligibleTexts choices) ∧
      (generateCommitMessages choices).Sublist (eligibleTexts choices) ∧
      (generateCommitMessages choices).Nodup ∧
      (∀ x, x ∈ generateCommitMessages choices ↔ x ∈ eligibleTexts choices) ∧
      generateCommitMessages
        [⟨some ⟨some "x."⟩⟩, ⟨some ⟨some "x."⟩⟩] = ["x"] := by
  intro choices
  have hdef : generateCommitMessages choices =
      dedupGo [] (eligibleTexts choices) := rfl
  refine ⟨?_, ?_, ?_, ?_, rfl⟩
  · rw [hdef, dedupFirstSeen,
      dedupGo_eq_foldl (eligibleTexts choices) [] [] (by simp)]
    simp
  · rw [hdef]
    exact dedupGo_sublist (eligibleTexts choices) []
  · rw [hdef]
    exact dedupGo_nodup (eligibleTexts choices) []
  · intro x
    rw [hdef, dedupGo_mem]
    simp

/-- C3: if any pair of the batch names an unrecognized key or carries a value
its parser rejects, `setConfigs` fails before the file write (the error
return models throwing ahead of `fs.writeFile`), so nothing of the batch is
persisted and the file is left unmodified. -/
theorem setConfigs_all_or_nothing :
    ∀ (file : RawConfig) (pairs : List (String × String)),
      (∃ p ∈ pairs, pairRejected p = true) →
      ∃ e, setConfigs file pairs = .error e := by
  intro file pairs
  induction pairs generalizing file with
  | nil =>
    rintro ⟨p, hp, _⟩
    cases hp
  | cons q rest ih =>
    rintro ⟨p, hp, hrej⟩
    obtain ⟨key, value⟩ := q
    rcases hk : keyOfString key with _ | ck
    · exact ⟨"Invalid config property: " ++ key, by simp [setConfigs, hk]⟩
    · rcases hv : parserFor ck (some value) with e | parsed
      · exact ⟨e, by simp [setConfigs, hk, hv]⟩
      · rcases List.mem_cons.mp hp with hpe | hpm
        · subst hpe
          simp [pairRejected, hk, hv] at hrej
        · have hrest := ih (rawSet file key (valueToString parsed)) ⟨p, hpm, hrej⟩
          simpa [setConfigs, hk, hv] using hrest

/-- C3 witness: a batch containing the unrecognized key UNKNOWN fails. -/
theorem setConfigs_all_or_nothing_witness :
    ∃ e, setConfigs [] [("UNKNOWN", "1")] = .error e :=
  setConfigs_all_or_nothing [] [("UNKNOWN", "1")]
    ⟨("UNKNOWN", "1"), by simp, by decide⟩

theorem parseKeysGo_suppress_eq (cli file : RawConfig) :
    ∀ (ks : List ConfigKey) (acc : ParsedConfig),
      parseKeysGo cli file true ks acc =
        .ok (acc ++ ks.filterMap (fun k =>
          (parserFor k (resolveRaw cli file k)).toOption.map (fun v => (k, v)))) := by
  intro ks
  induction ks with
  | nil => intro acc; simp [parseKeysGo]
  | cons k ks ih =>
    intro acc
    rcases hp : parserFor k (resolveRaw cli file k) with e | v
    · simp [parseKeysGo, hp, ih, Except.toOption]
    · simp [parseKeysGo, hp, ih, Except.toOption, List.append_assoc]

theorem plookup_filterMap_not_mem (g : ConfigKey → Option ConfigValue) :
    ∀ (ks : List ConfigKey) (k : ConfigKey), k ∉ ks →
      plookup (ks.filterMap (fun j => (g j).map (fun v => (j, v)))) k = none := by
  intro ks
  induction ks with
  | nil => intro k _; simp [plookup]
  | cons j js ih =>
    intro k hk
    have hkj : ¬ j = k := fun h => hk (h ▸ List.mem_cons_self j js)
    have hkjs : k ∉ js := fun h => hk (List.mem_cons_of_mem j h)
    rcases hg : g j with _ | v
    · simpa [List.filterMap_cons, hg] using ih k hkjs
    · simp only [List.filterMap_cons, hg, Option.map_some, plookup, if_neg hkj]
      exact ih k hkjs

theorem plookup_filterMap_mem (g : ConfigKey → Option ConfigValue) :
    ∀ (ks : List ConfigKey) (k : ConfigKey), ks.Nodup → k ∈ ks →
      plookup (ks.filterMap (fun j => (g j).map (fun v => (j, v)))) k = g k := by
  intro ks
  induction ks with
  | nil => intro k _ hk; cases hk
  | cons j js ih =>
    intro k hnd hk
    rcases List.mem_cons.mp hk with hkj | hkjs
    · subst hkj
      rcases hg : g k with _ | v
      · have hrest := plookup_filterMap_not_mem g js k (List.nodup_cons.mp hnd).1
        simp [List.filterMap_cons, hg, hrest]
      · simp [List.filterMap_cons, hg, plookup]
    · have hjk : ¬ j = k :=
        fun h => (List.nodup_cons.mp hnd).1 (h ▸ hkjs)
      rcases hg : g j with _ | v
      · simpa [List.filterMap_cons, hg]
          using ih k (List.nodup_cons.mp hnd).2 hkjs
      · simp only [List.filterMap_cons, hg, Option.map_some, plookup, if_neg hjk]
        exact ih k (List.nodup_cons.mp hnd).2 hkjs

/-- C9: with suppression requested, `getConfig` always returns successfully,
whatever the persisted raw config and CLI overrides hold: every per-key
parser failure is swallowed, the failing key is omitted from the result
rather than defaulted (the result maps each key to exactly its parser's
non-error output, when there is one), and the cross-field credential checks
are skipped. -/
theorem getConfig_suppress_total :
    ∀ file cli : RawConfig,
      ∃ pc, getConfig file cli true = .ok pc ∧
        ∀ k : ConfigKey, plookup pc k =
          (parserFor k (resolveRaw cli file k)).toOption := by
  intro file cli
  refine ⟨ConfigKey.all.filterMap (fun k =>
    (parserFor k (resolveRaw cli file k)).toOption.map (fun v => (k, v))), ?_, ?_⟩
  · unfold getConfig
    rw [parseKeysGo_suppress_eq cli file ConfigKey.all []]
    simp [Except.bind, crossFieldCheck]
  · intro k
    exact plookup_filterMap_mem _ ConfigKey.all k (by decide)
      (by cases k <;> decide)

theorem bindE_ok {α β : Type} {x : Except String α} {f : α → Except String β}
    {v : β} (h : (x >>= f) = .ok v) : ∃ a, x = .ok a ∧ f a = .ok v := by
  cases x with
  | error e => exact absurd h (by simp [Bind.bind, Except.bind])
  | ok a => exact ⟨a, rfl, by simpa [Bind.bind, Except.bind] using h⟩

theorem parse_USE_AZURE_ok_shape (x : Option String) (v : ConfigValue)
    (h : parse_USE_AZURE x = .ok v) : ∃ b, v = .bool b := by
  rcases x with _ | s
  · simp [parse_USE_AZURE] at h
    exact ⟨false, h.symm⟩
  · unfold parse_USE_AZURE at h
    obtain ⟨a, _, hf⟩ := bindE_ok h
    exact ⟨_, by cases hf; rfl⟩

theorem parse_OPENAI_KEY_ok_shape (x : Option String) (v : ConfigValue)
    (h : parse_OPENAI_KEY x = .ok v) : ∃ s, v = .str s := by
  by_cases hf : jsFalsy x = true
  · simp [parse_OPENAI_KEY, hf] at h
    exact ⟨"", h.symm⟩
  · unfold parse_OPENAI_KEY at h
    rw [if_neg hf] at h
    obtain ⟨a, _, hfa⟩ := bindE_ok h
    exact ⟨_, by cases hfa; rfl⟩

theorem parse_AZURE_OPENAI_KEY_ok_shape (x : Option String) (v : ConfigValue)
    (h : parse_AZURE_OPENAI_KEY x = .ok v) : ∃ s, v = .str s := by
  by_cases hf : jsFalsy x = true
  · simp [parse_AZURE_OPENAI_KEY, hf] at h
    exact ⟨"", h.symm⟩
  · unfold parse_AZURE_OPENAI_KEY at h
    rw [if_neg hf] at h
    obtain ⟨a, _, hfa⟩ := bindE_ok h
    exact ⟨_, by cases hfa; rfl⟩

theorem parse_AZURE_OPENAI_ENDPOINT_ok_shape (x : Option String)
    (v : ConfigValue) (h : parse_AZURE_OPENAI_ENDPOINT x = .ok v) :
    ∃ s, v = .str s := by
  by_cases hf : jsFalsy x = true
  · simp [parse_AZURE_OPENAI_ENDPOINT, hf] at h
    exact ⟨"", h.symm⟩
  · unfold parse_AZURE_OPENAI_ENDPOINT at h
    rw [if_neg hf] at h
    obtain ⟨a, _, hfa⟩ := bindE_ok h
    exact ⟨_, by cases hfa; rfl⟩

theorem parseKeysGo_all_ok (cli file : RawConfig) :
    ∀ (ks : List ConfigKey) (acc : ParsedConfig),
      (∀ k ∈ ks, ∃ v, parserFor k (resolveRaw cli file k) = .ok v) →
      parseKeysGo cli file false ks acc =
        .ok (acc ++ ks.filterMap (fun k =>
          (parserFor k (resolveRaw cli file k)).toOption.map (fun v => (k, v)))) := by
  intro ks
  induction ks with
  | nil => intro acc _; simp [parseKeysGo]
  | cons k ks ih =>
    intro acc hall
    obtain ⟨v, hv⟩ := hall k (List.mem_cons_self k ks)
    have ih' := ih (acc ++ [(k, v)])
      (fun j hj => hall j (List.mem_cons_of_mem k hj))
    simp only [parseKeysGo, hv]
    rw [ih']
    simp [Except.toOption, hv, List.append_assoc]

/-- C1: with suppression off and every per-key parser succeeding on its
resolved value, `getConfig` fails exactly when the cross-field credential
invariant is violated — with the targeted instructional error matching the
violation — and otherwise returns the validated mapping. -/
theorem getConfig_cross_field_invariant :
    ∀ file cli : RawConfig,
      (∀ k : ConfigKey, ∃ v, parserFor k (resolveRaw cli file k) = .ok v) →
      ∃ (useAzure : Bool) (openaiKey azureKey azureEndpoint : String),
        parserFor .USE_AZURE (resolveRaw cli file .USE_AZURE) =
          .ok (.bool useAzure) ∧
        parserFor .OPENAI_KEY (resolveRaw cli file .OPENAI_KEY) =
          .ok (.str openaiKey) ∧
        parserFor .AZURE_OPENAI_KEY (resolveRaw cli file .AZURE_OPENAI_KEY) =
          .ok (.str azureKey) ∧
        parserFor .AZURE_OPENAI_ENDPOINT
            (resolveRaw cli file .AZURE_OPENAI_ENDPOINT) =
          .ok (.str azureEndpoint) ∧
        (credentialsOk useAzure openaiKey azureKey azureEndpoint →
          ∃ pc, getConfig file cli false = .ok pc ∧
            ∀ k : ConfigKey, plookup pc k =
              (parserFor k (resolveRaw cli file k)).toOption) ∧
        (useAzure = false → openaiKey = "" →
          getConfig file cli false = .error msgMissingOpenAIKey) ∧
        (useAzure = true → azureKey = "" →
          getConfig file cli false = .error msgMissingAzureKey) ∧
        (useAzure = true → azureKey ≠ "" → azureEndpoint = "" →
          getConfig file cli false = .error msgMissingAzureEndpoint) := by
  intro file cli hall
  obtain ⟨vUA, hUA0⟩ := hall .USE_AZURE
  obtain ⟨useAzure, rfl⟩ := parse_USE_AZURE_ok_shape _ _ hUA0
  obtain ⟨vOK, hOK0⟩ := hall .OPENAI_KEY
  obtain ⟨openaiKey, rfl⟩ := parse_OPENAI_KEY_ok_shape _ _ hOK0
  obtain ⟨vAK, hAK0⟩ := hall .AZURE_OPENAI_KEY
  obtain ⟨azureKey, rfl⟩ := parse_AZURE_OPENAI_KEY_ok_shape _ _ hAK0
  obtain ⟨vAE, hAE0⟩ := hall .AZURE_OPENAI_ENDPOINT
  obtain ⟨azureEndpoint, rfl⟩ := parse_AZURE_OPENAI_ENDPOINT_ok_shape _ _ hAE0
  have hpc := parseKeysGo_all_ok cli file ConfigKey.all [] (fun k _ => hall k)
  set pcL := ConfigKey.all.filterMap (fun k =>
    (parserFor k (resolveRaw cli file k)).toOption.map (fun v => (k, v)))
    with hpcLdef
  have hred : getConfig file cli false = crossFieldCheck false pcL := by
    unfold getConfig
    rw [hpc]
    rfl
  have hlookup : ∀ k, plookup pcL k =
      (parserFor k (resolveRaw cli file k)).toOption :=
    fun k => plookup_filterMap_mem _ ConfigKey.all k (by decide)
      (by cases k <;> decide)
  have hUAl : plookup pcL .USE_AZURE = some (.bool useAzure) := by
    rw [hlookup, hUA0]
    rfl
  have hOKl : plookup pcL .OPENAI_KEY = some (.str openaiKey) := by
    rw [hlookup, hOK0]
    rfl
  have hAKl : plookup pcL .AZURE_OPENAI_KEY = some (.str azureKey) := by
    rw [hlookup, hAK0]
    rfl
  have hAEl : plookup pcL .AZURE_OPENAI_ENDPOINT = some (.str azureEndpoint) := by
    rw [hlookup, hAE0]
    rfl
  refine ⟨useAzure, openaiKey, azureKey, azureEndpoint,
    hUA0, hOK0, hAK0, hAE0, ?_, ?_, ?_, ?_⟩
  · intro hcred
    refine ⟨pcL, ?_, hlookup⟩
    rw [hred]
    unfold crossFieldCheck
    simp only [hUAl, hOKl, hAKl, hAEl]
    cases useAzure with
    | false =>
      have hok : ¬ openaiKey = "" := hcred.1 rfl
      simp [hok]
    | true =>
      have h2 := hcred.2 rfl
      simp [h2.1, h2.2]
  · intro hA hO
    subst hA
    subst hO
    rw [hred]
    unfold crossFieldCheck
    simp only [hUAl, hOKl, hAKl, hAEl]
    simp
  · intro hA hK
    subst hA
    subst hK
    rw [hred]
    unfold crossFieldCheck
    simp only [hUAl, hOKl, hAKl, hAEl]
    simp
  · intro hA hK hE
    subst hA
    subst hE
    rw [hred]
    unfold crossFieldCheck
    simp only [hUAl, hOKl, hAKl, hAEl]
    simp [hK]

/-- C1 witness: a concrete persisted config holding only a valid direct API
key, where every parser succeeds, the invariant holds, and the read returns
the validated mapping. -/
theorem getConfig_cross_field_invariant_witness :
    ∃ (useAzure : Bool) (openaiKey azureKey azureEndpoint : String),
      parserFor .USE_AZURE
          (resolveRaw [] [("OPENAI_KEY", "sk-abc")] .USE_AZURE) =
        .ok (.bool useAzure) ∧
      parserFor .OPENAI_KEY
          (resolveRaw [] [("OPENAI_KEY", "sk-abc")] .OPENAI_KEY) =
        .ok (.str openaiKey) ∧
      parserFor .AZURE_OPENAI_KEY
          (resolveRaw [] [("OPENAI_KEY", "sk-abc")] .AZURE_OPENAI_KEY) =
        .ok (.str azureKey) ∧
      parserFor .AZURE_OPENAI_ENDPOINT
          (resolveRaw [] [("OPENAI_KEY", "sk-abc")] .AZURE_OPENAI_ENDPOINT) =
        .ok (.str azureEndpoint) ∧
      (credentialsOk useAzure openaiKey azureKey azureEndpoint →
        ∃ pc, getConfig [("OPENAI_KEY", "sk-abc")] [] false = .ok pc ∧
          ∀ k : ConfigKey, plookup pc k =
            (parserFor k (resolveRaw [] [("OPENAI_KEY", "sk-abc")] k)).toOption) ∧
      (useAzure = false → openaiKey = "" →
        getConfig [("OPENAI_KEY", "sk-abc")] [] false =
          .error msgMissingOpenAIKey) ∧
      (useAzure = true → azureKey = "" →
        getConfig [("OPENAI_KEY", "sk-abc")] [] false =
          .error msgMissingAzureKey) ∧
      (useAzure = true → azureKey ≠ "" → azureEndpoint = "" →
        getConfig [("OPENAI_KEY", "sk-abc")] [] false =
          .error msgMissingAzureEndpoint) :=
  getConfig_cross_field_invariant [("OPENAI_KEY", "sk-abc")] []
    (by intro k; cases k <;> exact ⟨_, rfl⟩)

end Aicommits
